import Mathlib

/-!
Verification development for the DuckDB NIF marshalling layer
(c_src/duckdb_ex.c).

The development shallowly embeds the C code of the NIF into Lean:

* Erlang terms produced through the `enif_make_*` API are modelled by the
  `Term` family (`Term.nil` models the atom `nil` created at module load,
  `Term.int` models the exact integers produced by `enif_make_int`,
  `enif_make_long`, `enif_make_int64`, `enif_make_uint64`, `Term.dbl` models
  `enif_make_double`, `Term.bytes` models binaries built with
  `enif_alloc_binary`/`enif_make_binary`, and `Term.list`/`Term.tuple`/
  `Term.map` model `enif_make_list_from_array`, `enif_make_tuple_from_array`
  and `enif_make_map_from_arrays`).
* IEEE doubles are modelled symbolically by `FloatVal`: NaN and the two
  infinities are explicit constructors (so `isnan`/`isinf` tests in the C
  code become constructor tests) and finite doubles are idealized as exact
  rationals.
* Engine-side state (materialized results, vectors, the appender cursor)
  is modelled as explicit data passed to the embedded functions, with the
  engine API calls the C code makes translated into reads of that data.
-/

/-- Symbolic model of a C float/double: NaN and the signed infinities are
distinguished constructors and finite values are idealized as exact
rationals (rounding of finite arithmetic is not modelled). -/
inductive FloatVal where
  | finite (q : ℚ)
  | nan
  | posInf
  | negInf
deriving DecidableEq

mutual
/-- Model of the Erlang terms the NIF builds. `nil` is the atom `nil`
(`atom_nil` in the C source, the NIF's encoding of SQL NULL). -/
inductive Term where
  | nil
  | atom (s : String)
  | int (n : Int)
  | dbl (f : FloatVal)
  | bytes (s : String)
  | list (ts : TermList)
  | tuple (ts : TermList)
  | map (pairs : TermPairs)
deriving DecidableEq
/-- Cons-list of terms (kept mutually inductive with `Term` so that
decidable equality can be derived). -/
inductive TermList where
  | nil
  | cons (t : Term) (rest : TermList)
deriving DecidableEq
/-- Key/value pair list backing the model of an Erlang map. -/
inductive TermPairs where
  | nil
  | cons (k v : Term) (rest : TermPairs)
deriving DecidableEq
end

/-- Convert a Lean list of terms into the mutual-inductive representation. -/
def TermList.ofList : List Term → TermList
  | [] => .nil
  | t :: ts => .cons t (TermList.ofList ts)

/-- Convert back to a Lean list. -/
def TermList.toList : TermList → List Term
  | .nil => []
  | .cons t ts => t :: ts.toList

/-- Convert a list of key/value pairs into the mutual-inductive map backing. -/
def TermPairs.ofList : List (Term × Term) → TermPairs
  | [] => .nil
  | p :: ps => .cons p.1 p.2 (TermPairs.ofList ps)

/-- Model of the helper `make_error` from the C source: a 2-tuple of the
atom `error` and a binary holding the message text. -/
def make_error (msg : String) : Term :=
  Term.tuple (.ofList [Term.atom "error", Term.bytes msg])

/-- Model of the helper `make_ok` from the C source. -/
def make_ok (t : Term) : Term :=
  Term.tuple (.ofList [Term.atom "ok", t])

/-- Engine call outcome (`duckdb_state` in the C API). -/
inductive DuckState where
  | success
  | error
deriving DecidableEq

/-- DuckDB type identifiers (`duckdb_type` in the C API) as seen by the
row-oriented materializer, plus the `unknown` value used by the type tag
mapper for unmapped identifiers. -/
inductive DuckType where
  | boolean | tinyint | smallint | integer | bigint
  | utinyint | usmallint | uinteger | ubigint
  | float | double | varchar | blob | date | time | timestamp
  | interval | hugeint | uhugeint | listT | arrayT | structT | mapT
  | union | decimal | enum | uuid | bit | time_tz
  | timestamp_s | timestamp_ms | timestamp_ns | timestamp_tz
  | unknown
deriving DecidableEq

/-- Numeric value of a `duckdb_type` identifier, from the `DUCKDB_TYPE_*`
enumeration in duckdb.h (used only to reproduce the `%d` in the
`unsupported_*` fallback strings of the C source). -/
def duckTypeId : DuckType → Nat
  | .boolean => 1 | .tinyint => 2 | .smallint => 3 | .integer => 4
  | .bigint => 5 | .utinyint => 6 | .usmallint => 7 | .uinteger => 8
  | .ubigint => 9 | .float => 10 | .double => 11 | .timestamp => 12
  | .date => 13 | .time => 14 | .interval => 15 | .hugeint => 16
  | .varchar => 17 | .blob => 18 | .decimal => 19 | .timestamp_s => 20
  | .timestamp_ms => 21 | .timestamp_ns => 22 | .enum => 23 | .listT => 24
  | .structT => 25 | .mapT => 26 | .uuid => 27 | .union => 28
  | .bit => 29 | .time_tz => 30 | .timestamp_tz => 31 | .uhugeint => 32
  | .arrayT => 33 | .unknown => 0

/-- LLONG_MAX on the host (64-bit long long). -/
def llongMax : Int := 9223372036854775807

/-- LLONG_MIN on the host (64-bit long long). -/
def llongMin : Int := -9223372036854775808

/-- ULLONG_MAX on the host (64-bit unsigned long long). -/
def ullongMax : Nat := 18446744073709551615

/-- Decimal digit test on a character (C isdigit for the ASCII digits). -/
def isDigitChar (c : Char) : Bool := 48 ≤ c.toNat ∧ c.toNat ≤ 57

/-- Numeric value of an ASCII digit character. -/
def digitVal (c : Char) : Nat := c.toNat - 48

/-- Longest digit prefix of a character list together with the rest. -/
def spanDigits : List Char → List Char × List Char
  | [] => ([], [])
  | c :: cs =>
    if isDigitChar c then
      let p := spanDigits cs
      (c :: p.1, p.2)
    else ([], c :: cs)

/-- Value of a digit string read most-significant first. -/
def digitsVal (ds : List Char) : Nat := ds.foldl (fun a c => a * 10 + digitVal c) 0

/-- Optional leading sign of a C number literal: returns (negative, rest);
with no sign character the input is returned unchanged. -/
def splitSign (cs : List Char) : Bool × List Char :=
  match cs with
  | [] => (false, [])
  | c :: t => if c = '-' then (true, t) else if c = '+' then (false, t) else (false, c :: t)

/-- Model of C `strtoll(s, &endptr, 10)`: reads an optional sign and the
longest digit run, saturating to the `long long` range; the second
component tells whether `*endptr == '\0'` afterwards (when no digit is
read, C leaves `endptr` at the start of the string). -/
def strtollModel (s : String) : Int × Bool :=
  let cs := s.data
  let sp := splitSign cs
  let p := spanDigits sp.2
  let raw : Int := (if sp.1 then -1 else 1) * (digitsVal p.1 : Int)
  let val := max llongMin (min llongMax raw)
  (val, if p.1.isEmpty then cs.isEmpty else p.2.isEmpty)

/-- Model of C `strtoull(s, NULL, 10)`: magnitude saturating to the
`unsigned long long` range; a leading minus sign is honored by negation in
unsigned (mod 2^64) arithmetic. -/
def strtoullModel (s : String) : Nat :=
  let sp := splitSign s.data
  let p := spanDigits sp.2
  let m := digitsVal p.1
  if ullongMax < m then ullongMax
  else if sp.1 then (2 ^ 64 - m % 2 ^ 64) % 2 ^ 64
  else m

/-- Two's-complement truncation of an integer to a signed width (the C
casts `(int8_t)`, `(int16_t)`, `(int32_t)`). -/
def wrapSigned (bits : Nat) (v : Int) : Int :=
  (v + 2 ^ (bits - 1)) % 2 ^ bits - 2 ^ (bits - 1)

/-- Truncation of a nonnegative value to an unsigned width (the C casts
`(uint8_t)`, `(uint16_t)`, `(uint32_t)` applied to `strtoul` results). -/
def wrapUnsigned (bits : Nat) (v : Nat) : Nat := v % 2 ^ bits

/-- Statement that the string `s` is the plain decimal representation of
the integer `v`: an optional leading minus followed by a nonempty run of
decimal digits whose value is the magnitude of `v`. This characterizes the
text DuckDB's `duckdb_value_varchar` produces for a HUGEINT cell. -/
def IsDecimalRep (s : String) (v : Int) : Prop :=
  ∃ ds : List Char, ds ≠ [] ∧ (∀ c ∈ ds, isDigitChar c = true) ∧
    ((0 ≤ v ∧ s.data = ds ∧ v = (digitsVal ds : Int)) ∨
     (v < 0 ∧ s.data = '-' :: ds ∧ v = -(digitsVal ds : Int)))

/-- Model of the C helper `hugeint_to_elixir_integer_via_varchar`: the
argument is the result of `duckdb_value_varchar` on the hugeint cell
(`none` models a NULL pointer). The C code parses with `strtoll` and
returns a native integer only when the whole string was consumed and the
parsed value is neither `LLONG_MAX` nor `LLONG_MIN` (those two values also
signal `strtoll` overflow); otherwise the decimal string itself is
returned as a binary. -/
def hugeint_to_elixir_integer_via_varchar (str : Option String) : Term :=
  match str with
  | none => Term.nil
  | some s =>
    let p := strtollModel s
    if p.2 = true ∧ p.1 ≠ llongMax ∧ p.1 ≠ llongMin then Term.int p.1
    else Term.bytes s

/-- Engine-side view of an already-materialized result, as consumed by
`result_rows_nif`. `columnTypes` models `duckdb_column_type` per column,
`isNull` models `duckdb_value_is_null`, `varchar` models
`duckdb_value_varchar` (`none` is a NULL pointer), `blobVal` models
`duckdb_value_blob` (`none` is a NULL data pointer), and `cellFloat`
models the composition of `duckdb_value_varchar` with C `strtof`/`strtod`
on a FLOAT/DOUBLE cell (for NaN and the infinities that composition is
exact, which is all the development relies on). -/
structure MaterializedResult where
  columnTypes : List DuckType
  rowCount : Nat
  isNull : Nat → Nat → Bool
  varchar : Nat → Nat → Option String
  cellFloat : Nat → Nat → FloatVal
  blobVal : Nat → Nat → Option String

/-- Model of the UUID-column scan at the top of `result_rows_nif` (a loop
over the column types with early exit). -/
def hasUuidCol (ts : List DuckType) : Bool := ts.any (fun t => t = DuckType.uuid)

/-- Common pattern of `result_rows_nif`: a varchar extraction that yields a
binary when the C string is non-NULL, nonempty and not the text NULL, and
otherwise a given fallback term. -/
def strictVarcharTerm (vc : Option String) (fallback : Term) : Term :=
  match vc with
  | some s => if 0 < s.length ∧ s ≠ "NULL" then Term.bytes s else fallback
  | none => fallback

/-- Model of the float/double extraction of `result_rows_nif`: the value
obtained by re-parsing the varchar form is classified with `isnan` and
`isinf` before being turned into a term. -/
def rowFloatTerm (f : FloatVal) : Term :=
  match f with
  | .nan => Term.atom "nan"
  | .posInf => Term.atom "infinity"
  | .negInf => Term.atom "negative_infinity"
  | .finite q => Term.dbl (.finite q)

/-- Per-cell body of the row loop of `result_rows_nif` (the code executed
for one column when the UUID short-circuit does not apply): the NULL check,
the special pre-switch UUID branch, and the per-type switch, translated
case by case from the C source. The `DUCKDB_TYPE_UUID` case inside the
switch is unreachable in the C source (the pre-switch branch continues
first) but is translated all the same. -/
def rowCell (res : MaterializedResult) (c r : Nat) : Term :=
  let t := res.columnTypes.getD c DuckType.unknown
  if res.isNull c r = true then Term.nil
  else if t = DuckType.uuid then
    strictVarcharTerm (res.varchar c r) Term.nil
  else
    match t with
    | .boolean =>
      match res.varchar c r with
      | some s => if s = "true" ∨ s = "1" then Term.atom "true" else Term.atom "false"
      | none => Term.nil
    | .tinyint =>
      match res.varchar c r with
      | some s => Term.int (wrapSigned 8 (strtollModel s).1)
      | none => Term.nil
    | .smallint =>
      match res.varchar c r with
      | some s => Term.int (wrapSigned 16 (strtollModel s).1)
      | none => Term.nil
    | .integer =>
      match res.varchar c r with
      | some s => Term.int (wrapSigned 32 (strtollModel s).1)
      | none => Term.nil
    | .bigint =>
      match res.varchar c r with
      | some s => Term.int (strtollModel s).1
      | none => Term.nil
    | .utinyint =>
      match res.varchar c r with
      | some s => Term.int (wrapUnsigned 8 (strtoullModel s))
      | none => Term.nil
    | .usmallint =>
      match res.varchar c r with
      | some s => Term.int (wrapUnsigned 16 (strtoullModel s))
      | none => Term.nil
    | .uinteger =>
      match res.varchar c r with
      | some s => Term.int (wrapUnsigned 32 (strtoullModel s))
      | none => Term.nil
    | .ubigint =>
      match res.varchar c r with
      | some s => Term.int (strtoullModel s)
      | none => Term.nil
    | .decimal => strictVarcharTerm (res.varchar c r) Term.nil
    | .timestamp =>
      if res.isNull c r = true then Term.nil
      else strictVarcharTerm (res.varchar c r) (Term.bytes "<timestamp_extraction_failed>")
    | .timestamp_s =>
      if res.isNull c r = true then Term.nil
      else strictVarcharTerm (res.varchar c r) (Term.bytes "<timestamp_extraction_failed>")
    | .timestamp_ms =>
      if res.isNull c r = true then Term.nil
      else strictVarcharTerm (res.varchar c r) (Term.bytes "<timestamp_extraction_failed>")
    | .timestamp_ns =>
      if res.isNull c r = true then Term.nil
      else strictVarcharTerm (res.varchar c r) (Term.bytes "<timestamp_extraction_failed>")
    | .timestamp_tz =>
      if res.isNull c r = true then Term.nil
      else strictVarcharTerm (res.varchar c r) (Term.bytes "<timestamp_extraction_failed>")
    | .hugeint => hugeint_to_elixir_integer_via_varchar (res.varchar c r)
    | .float =>
      match res.varchar c r with
      | some _ => rowFloatTerm (res.cellFloat c r)
      | none => Term.nil
    | .double =>
      match res.varchar c r with
      | some _ => rowFloatTerm (res.cellFloat c r)
      | none => Term.nil
    | .date => strictVarcharTerm (res.varchar c r) Term.nil
    | .time => strictVarcharTerm (res.varchar c r) Term.nil
    | .interval => strictVarcharTerm (res.varchar c r) Term.nil
    | .blob =>
      match res.blobVal c r with
      | some b => if 0 < b.length then Term.bytes b else Term.bytes ""
      | none => Term.bytes ""
    | .varchar =>
      match res.varchar c r with
      | some s => Term.bytes s
      | none => Term.nil
    | .time_tz => strictVarcharTerm (res.varchar c r) Term.nil
    | .bit => strictVarcharTerm (res.varchar c r) Term.nil
    | .uhugeint => strictVarcharTerm (res.varchar c r) Term.nil
    | .enum =>
      match res.varchar c r with
      | some s =>
        if 0 < s.length ∧ s ≠ "NULL" then Term.bytes s
        else if res.isNull c r = true then Term.nil
        else Term.bytes "<regular_api_enum_limitation>"
      | none =>
        if res.isNull c r = true then Term.nil
        else Term.bytes "<regular_api_enum_limitation>"
    | .uuid =>
      if res.isNull c r = true then Term.nil
      else Term.bytes "<regular_api_uuid_limitation>"
    | .listT =>
      if res.isNull c r = true then Term.nil
      else strictVarcharTerm (res.varchar c r) (Term.bytes "<unsupported_list_type>")
    | .structT =>
      if res.isNull c r = true then Term.nil
      else strictVarcharTerm (res.varchar c r) (Term.bytes "<unsupported_struct_type>")
    | .mapT =>
      if res.isNull c r = true then Term.nil
      else strictVarcharTerm (res.varchar c r) (Term.bytes "<unsupported_map_type>")
    | .arrayT =>
      if res.isNull c r = true then Term.nil
      else strictVarcharTerm (res.varchar c r) (Term.bytes "<unsupported_array_type>")
    | .union => strictVarcharTerm (res.varchar c r) Term.nil
    | .unknown => strictVarcharTerm (res.varchar c r) Term.nil

/-- One row of `result_rows_nif`, before being packed into a tuple: the
UUID multi-column short-circuit sets every cell to nil, otherwise each
column goes through `rowCell`. -/
def resultRow (res : MaterializedResult) (r : Nat) : List Term :=
  if hasUuidCol res.columnTypes = true ∧ 1 < res.columnTypes.length then
    res.columnTypes.map (fun _ => Term.nil)
  else
    (List.range res.columnTypes.length).map (fun c => rowCell res c r)

/-- Model of `result_rows_nif`: the list of row tuples. -/
def result_rows (res : MaterializedResult) : List Term :=
  (List.range res.rowCount).map (fun r => Term.tuple (.ofList (resultRow res r)))

/-- Typed readout of one slot of a vector's data area, as the C code
obtains it by casting `duckdb_vector_get_data` to the column's storage
type. Calendar/clock values carry the output of the engine decomposition
routines the C code calls on the raw storage (`duckdb_from_date`,
`duckdb_from_time`, `duckdb_from_timestamp`, `duckdb_from_time_tz`);
second/millisecond/nanosecond timestamps carry the raw tick count, which
is all the C code reads. -/
inductive Cell where
  | boolC (b : Bool)
  | intC (v : Int)
  | uintC (v : Nat)
  | floatC (f : FloatVal)
  | doubleC (f : FloatVal)
  | hugeintC (upper : Int) (lower : Nat)
  | uhugeintC (upper lower : Nat)
  | stringC (s : String)
  | dateC (year month day : Int)
  | timeC (hour minute sec micros : Int)
  | timestampC (year month day hour minute sec micros : Int)
  | tsTicksC (ticks : Int)
  | timeTzC (micros offset : Int)
  | intervalC (months days micros : Int)
  | listEntryC (off len : Nat)
deriving DecidableEq

mutual
/-- Logical type descriptor of a vector, mirroring what the C code asks of
a `duckdb_logical_type`: the type id, and per type the metadata accessors
it invokes (decimal width/scale/internal type, enum internal type and
dictionary, child types, array size, struct fields, map key/value types). -/
inductive LogicalType where
  | boolean | tinyint | smallint | integer | bigint
  | utinyint | usmallint | uinteger | ubigint
  | hugeintT | uhugeintT | floatT | doubleT
  | decimalT (width scale : Nat) (internal : DuckType)
  | enumT (internal : DuckType) (dict : List String)
  | dateT | timeT | timestampT | timestampST | timestampMsT | timestampNsT
  | timestampTzT | timeTzT | intervalT | varcharT | blobT | bitT | uuidT
  | listT (child : LogicalType)
  | arrayT (size : Nat) (child : LogicalType)
  | structT (fields : FieldList)
  | mapT (key value : LogicalType)
  | unionT
  | otherT (tid : Nat)
deriving DecidableEq
/-- Field list of a struct logical type: declared name and child type, in
declaration order. -/
inductive FieldList where
  | nilF
  | consF (name : String) (t : LogicalType) (rest : FieldList)
deriving DecidableEq
end

/-- Non-owning view of one column vector inside a chunk: the data area
(`none` models a NULL `duckdb_vector_get_data` pointer), the validity
bitmap (`none` models a NULL `duckdb_vector_get_validity` pointer, meaning
all rows valid), and the child vectors reachable through
`duckdb_list_vector_get_child` / `duckdb_array_vector_get_child` (single
child, index 0) and `duckdb_struct_vector_get_child` (one per field). -/
inductive DuckVector where
  | mk (data : Option (List Cell)) (validity : Option (List Bool)) (children : List DuckVector)

/-- Data area accessor. -/
def DuckVector.data : DuckVector → Option (List Cell)
  | .mk d _ _ => d

/-- Validity bitmap accessor. -/
def DuckVector.validity : DuckVector → Option (List Bool)
  | .mk _ v _ => v

/-- Child vector accessor. -/
def DuckVector.children : DuckVector → List DuckVector
  | .mk _ _ cs => cs

/-- The all-empty vector, used where the C source indexes a child vector
the model does not have (the C code would read engine memory there). -/
def emptyVec : DuckVector := .mk none none []

/-- Read `data[row_idx]` from the vector data area. -/
def readCell (v : DuckVector) (row : Nat) : Option Cell :=
  match v.data with
  | none => none
  | some cells => cells.get? row

/-- Model of `duckdb_validity_row_is_valid` guarded by a NULL bitmap check,
as in the C source: no bitmap means every row is valid. -/
def validAt (v : DuckVector) (row : Nat) : Bool :=
  match v.validity with
  | none => true
  | some bits => bits.getD row true

/-- Complex types whose extraction does not go through the plain data
pointer (the `is_complex_type` test in `extract_vector_value`). -/
def isComplexType : LogicalType → Bool
  | .structT _ => true
  | .listT _ => true
  | .arrayT _ _ => true
  | .mapT _ _ => true
  | _ => false

/-- Zero-padded decimal rendering of a nonnegative number, as produced by
the `%0Nd` conversions of `snprintf`. -/
def zeroPad (w : Nat) (n : Nat) : String :=
  let s := toString n
  String.mk (List.replicate (w - s.length) '0') ++ s

/-- Rendering of a possibly negative number under `%0Nd`: the sign takes
one position of the field width and the rest is zero padded. -/
def zeroPadInt (w : Nat) (v : Int) : String :=
  if v < 0 then "-" ++ zeroPad (w - 1) (-v).toNat else zeroPad w v.toNat

/-- Lowercase hexadecimal digit character. -/
def hexDigitChar (d : Nat) : Char :=
  if d < 10 then Char.ofNat (48 + d) else Char.ofNat (87 + d)

/-- Fixed-width lowercase hexadecimal rendering (the `%0Nllx` conversions),
most significant digit first. -/
def hexPad : Nat → Nat → List Char
  | 0, _ => []
  | w + 1, n => hexDigitChar (n / 16 ^ w) :: hexPad w (n % 16 ^ w)

/-- Unsigned 64-bit pattern of a signed 64-bit value (the reinterpretation
the C code performs when it shifts and masks `uuid.upper`). -/
def toPattern64 (v : Int) : Nat := (v % (2 ^ 64 : Int)).toNat

/-- UUID text form built by `extract_vector_value`: canonical 8-4-4-4-12
lowercase hex groups taken from the 128-bit pattern, the first group being
the upper 32 bits of the high word. -/
def uuid_format (up64 lo : Nat) : String :=
  String.mk (hexPad 8 (up64 / 2 ^ 32 % 2 ^ 32) ++
    '-' :: hexPad 4 (up64 / 2 ^ 16 % 2 ^ 16) ++
    '-' :: hexPad 4 (up64 % 2 ^ 16) ++
    '-' :: hexPad 4 (lo / 2 ^ 48 % 2 ^ 16) ++
    '-' :: hexPad 12 (lo % 2 ^ 48))

/-- Lowercase hexadecimal digit test. -/
def isHexDigitChar (c : Char) : Bool :=
  (48 ≤ c.toNat ∧ c.toNat ≤ 57) ∨ (97 ≤ c.toNat ∧ c.toNat ≤ 102)

/-- Value of a lowercase hexadecimal digit character. -/
def hexVal (c : Char) : Nat :=
  if c.toNat ≤ 57 then c.toNat - 48 else c.toNat - 87

/-- Read exactly `k` hexadecimal digits, accumulating most significant
first; fails on a non-digit or premature end. -/
def readHexRun : List Char → Nat → Nat → Option (Nat × List Char)
  | cs, 0, acc => some (acc, cs)
  | [], _ + 1, _ => none
  | c :: cs, k + 1, acc =>
    if isHexDigitChar c then readHexRun cs k (acc * 16 + hexVal c) else none

/-- Consume one dash. -/
def expectDash : List Char → Option (List Char)
  | c :: cs => if c = '-' then some cs else none
  | [] => none

/-- Modelled from the spec: the engine's own UUID text parser (not part of
this repository), reading the canonical 8-4-4-4-12 lowercase hex grouping
back into the 128-bit pattern with the DCE byte order fixed by the spec:
the first group is the upper 32 bits of the high 64-bit word, then the two
16-bit halves of the low half of the high word, then the top 16 bits and
the low 48 bits of the low word. -/
def uuid_parse (s : String) : Option (Nat × Nat) := do
  let p1 ← readHexRun s.data 8 0
  let r1 ← expectDash p1.2
  let p2 ← readHexRun r1 4 0
  let r2 ← expectDash p2.2
  let p3 ← readHexRun r2 4 0
  let r3 ← expectDash p3.2
  let p4 ← readHexRun r3 4 0
  let r4 ← expectDash p4.2
  let p5 ← readHexRun r4 12 0
  if p5.2 = [] then
    some (p1.1 * 2 ^ 32 + p2.1 * 2 ^ 16 + p3.1, p4.1 * 2 ^ 48 + p5.1)
  else none

/-- Model of `duckdb_decimal_to_double` (engine conversion used by the
hugeint-width decimal fallback): the stored 128-bit fixed-point integer
divided by 10^scale, idealized as an exact rational. -/
def decimalHugeToDouble (scale : Nat) (upper : Int) (lower : Nat) : FloatVal :=
  .finite (((upper * 2 ^ 64 + lower : Int) : ℚ) / 10 ^ scale)

/-- Model of the C library `%.10g` conversion applied to the double from
`decimalHugeToDouble`. The model is exact for nonnegative integral values
below 10^10 (the only values this development evaluates it on); for every
other value it renders the underlying rational in a fixed but unmodelled
form, which no theorem of this file inspects. -/
def g10String (f : FloatVal) : String :=
  match f with
  | .nan => "nan"
  | .posInf => "inf"
  | .negInf => "-inf"
  | .finite q =>
    if q.den = 1 ∧ 0 ≤ q.num ∧ q.num < 10 ^ 10 then toString q.num
    else "g10:" ++ toString q.num ++ "/" ++ toString q.den

/-- Scale handling at the end of the decimal case of
`extract_vector_value`: scale zero yields the raw integer, a positive
scale divides by 10^scale in double arithmetic (idealized exact). -/
def decimalFinish (scale : Nat) (raw : Int) : Term :=
  if scale = 0 then Term.int raw
  else Term.dbl (.finite ((raw : ℚ) / 10 ^ scale))

/-- Duplicate check used by the model of `enif_make_map_from_arrays`
(Erlang map keys are compared for term equality). -/
def hasDupKey : List Term → Bool
  | [] => false
  | k :: ks => ks.any (fun k2 => k = k2) || hasDupKey ks

/-- Model of `enif_make_map_from_arrays` per the erl_nif documentation:
builds a map from parallel key/value arrays and fails (returns false to
the caller) when the same key occurs more than once. -/
def makeMapFromArrays (keys values : List Term) : Option Term :=
  if hasDupKey keys then none
  else some (Term.map (.ofList (keys.zip values)))

mutual
/-- Model of `extract_vector_value`: the NULL-data guard for non-complex
types, the validity check, and the per-type switch, translated case by
case from the C source. Reading a data slot whose shape differs from the
column's declared storage type (which in C would reinterpret raw bytes) is
mapped to the marker atom `model_bad_cell`; no theorem relies on it. The
allocation-failure arms of the C source (returning nil when `enif_alloc`
fails) are not modelled: allocation always succeeds in the model. -/
def extract_vector_value (v : DuckVector) (t : LogicalType) (row : Nat) : Term :=
  if isComplexType t = false ∧ v.data = none then Term.nil
  else if validAt v row = false then Term.nil
  else
    match t with
    | .boolean =>
      match readCell v row with
      | some (.boolC b) => if b then Term.atom "true" else Term.atom "false"
      | _ => Term.atom "model_bad_cell"
    | .tinyint =>
      match readCell v row with
      | some (.intC x) => Term.int x
      | _ => Term.atom "model_bad_cell"
    | .smallint =>
      match readCell v row with
      | some (.intC x) => Term.int x
      | _ => Term.atom "model_bad_cell"
    | .integer =>
      match readCell v row with
      | some (.intC x) => Term.int x
      | _ => Term.atom "model_bad_cell"
    | .bigint =>
      match readCell v row with
      | some (.intC x) => Term.int x
      | _ => Term.atom "model_bad_cell"
    | .utinyint =>
      match readCell v row with
      | some (.uintC x) => Term.int x
      | _ => Term.atom "model_bad_cell"
    | .usmallint =>
      match readCell v row with
      | some (.uintC x) => Term.int x
      | _ => Term.atom "model_bad_cell"
    | .uinteger =>
      match readCell v row with
      | some (.uintC x) => Term.int x
      | _ => Term.atom "model_bad_cell"
    | .ubigint =>
      match readCell v row with
      | some (.uintC x) => Term.int x
      | _ => Term.atom "model_bad_cell"
    | .hugeintT =>
      match readCell v row with
      | some (.hugeintC up lo) =>
        if up = 0 ∧ lo ≤ 9223372036854775807 then Term.int lo
        else if up = -1 ∧ 9223372036854775808 ≤ lo then Term.int ((lo : Int) - 2 ^ 64)
        else Term.bytes ("hugeint:" ++ toString up ++ ":" ++ toString lo)
      | _ => Term.atom "model_bad_cell"
    | .floatT =>
      match readCell v row with
      | some (.floatC f) => Term.dbl f
      | _ => Term.atom "model_bad_cell"
    | .doubleT =>
      match readCell v row with
      | some (.doubleC f) => Term.dbl f
      | _ => Term.atom "model_bad_cell"
    | .decimalT _ scale internal =>
      match internal with
      | .smallint =>
        match readCell v row with
        | some (.intC raw) => decimalFinish scale raw
        | _ => Term.atom "model_bad_cell"
      | .integer =>
        match readCell v row with
        | some (.intC raw) => decimalFinish scale raw
        | _ => Term.atom "model_bad_cell"
      | .bigint =>
        match readCell v row with
        | some (.intC raw) => decimalFinish scale raw
        | _ => Term.atom "model_bad_cell"
      | .hugeint =>
        match readCell v row with
        | some (.hugeintC up lo) => Term.bytes (g10String (decimalHugeToDouble scale up lo))
        | _ => Term.atom "model_bad_cell"
      | other => Term.bytes ("unsupported_decimal_internal_type_" ++ toString (duckTypeId other))
    | .dateT =>
      match readCell v row with
      | some (.dateC y mo d) =>
        Term.bytes (zeroPadInt 4 y ++ "-" ++ zeroPadInt 2 mo ++ "-" ++ zeroPadInt 2 d)
      | _ => Term.atom "model_bad_cell"
    | .timeT =>
      match readCell v row with
      | some (.timeC h mi se us) =>
        Term.bytes (zeroPadInt 2 h ++ ":" ++ zeroPadInt 2 mi ++ ":" ++ zeroPadInt 2 se ++ "." ++ zeroPadInt 6 us)
      | _ => Term.atom "model_bad_cell"
    | .timestampT =>
      match readCell v row with
      | some (.timestampC y mo d h mi se us) =>
        Term.bytes (zeroPadInt 4 y ++ "-" ++ zeroPadInt 2 mo ++ "-" ++ zeroPadInt 2 d ++ " " ++
          zeroPadInt 2 h ++ ":" ++ zeroPadInt 2 mi ++ ":" ++ zeroPadInt 2 se ++ "." ++ zeroPadInt 6 us)
      | _ => Term.atom "model_bad_cell"
    | .timestampST =>
      match readCell v row with
      | some (.tsTicksC n) => Term.bytes (toString n)
      | _ => Term.atom "model_bad_cell"
    | .timestampMsT =>
      match readCell v row with
      | some (.tsTicksC n) => Term.bytes (toString n)
      | _ => Term.atom "model_bad_cell"
    | .timestampNsT =>
      match readCell v row with
      | some (.tsTicksC n) => Term.bytes (toString n)
      | _ => Term.atom "model_bad_cell"
    | .timestampTzT => Term.atom "unsupported_timestamp_tz_type"
    | .timeTzT =>
      match readCell v row with
      | some (.timeTzC us off) => Term.tuple (.ofList [Term.int us, Term.int off])
      | _ => Term.atom "model_bad_cell"
    | .uuidT =>
      match readCell v row with
      | some (.hugeintC up lo) => Term.bytes (uuid_format (toPattern64 up) lo)
      | _ => Term.atom "model_bad_cell"
    | .enumT internal dict =>
      match internal with
      | .utinyint =>
        match readCell v row with
        | some (.uintC idx) =>
          if idx < dict.length then
            match dict.get? idx with
            | some s => Term.bytes s
            | none => Term.atom "invalid_enum_value"
          else Term.atom "invalid_enum_value"
        | _ => Term.atom "model_bad_cell"
      | .usmallint =>
        match readCell v row with
        | some (.uintC idx) =>
          if idx < dict.length then
            match dict.get? idx with
            | some s => Term.bytes s
            | none => Term.atom "invalid_enum_value"
          else Term.atom "invalid_enum_value"
        | _ => Term.atom "model_bad_cell"
      | .uinteger =>
        match readCell v row with
        | some (.uintC idx) =>
          if idx < dict.length then
            match dict.get? idx with
            | some s => Term.bytes s
            | none => Term.atom "invalid_enum_value"
          else Term.atom "invalid_enum_value"
        | _ => Term.atom "model_bad_cell"
      | _ => Term.atom "unsupported_enum_internal_type"
    | .bitT =>
      match readCell v row with
      | some (.stringC s) => Term.bytes s
      | _ => Term.atom "model_bad_cell"
    | .arrayT size child =>
      if size = 0 then Term.list .nil
      else
        match v.children.get? 0 with
        | none => Term.list .nil
        | some childVec =>
          Term.list (.ofList ((List.range size).map
            (fun i => extract_vector_value childVec child (row * size + i))))
    | .uhugeintT =>
      match readCell v row with
      | some (.uhugeintC up lo) =>
        if up = 0 then Term.bytes (toString lo)
        else Term.bytes (toString up ++ String.mk (hexPad 16 (lo % 2 ^ 64)))
      | _ => Term.atom "model_bad_cell"
    | .intervalT =>
      match readCell v row with
      | some (.intervalC mo d us) => Term.tuple (.ofList [Term.int mo, Term.int d, Term.int us])
      | _ => Term.atom "model_bad_cell"
    | .blobT =>
      match readCell v row with
      | some (.stringC s) => Term.bytes s
      | _ => Term.atom "model_bad_cell"
    | .varcharT =>
      match readCell v row with
      | some (.stringC s) => Term.bytes s
      | _ => Term.atom "model_bad_cell"
    | .listT child =>
      match readCell v row with
      | some (.listEntryC off len) =>
        if len = 0 then Term.list .nil
        else
          match v.children.get? 0 with
          | none => Term.list .nil
          | some childVec =>
            Term.list (.ofList ((List.range len).map
              (fun i => extract_vector_value childVec child (off + i))))
      | _ => Term.atom "model_bad_cell"
    | .structT fields =>
      if fieldCount fields = 0 then Term.map .nil
      else
        let kvs := extractStructFields v fields 0 row
        match makeMapFromArrays (kvs.map (fun p => p.1)) (kvs.map (fun p => p.2)) with
        | some m => m
        | none => Term.atom "struct_conversion_failed"
    | .mapT keyT valueT =>
      match readCell v row with
      | some (.listEntryC off len) =>
        let childVec := (v.children.get? 0).getD emptyVec
        let keyVec := (childVec.children.get? 0).getD emptyVec
        let valVec := (childVec.children.get? 1).getD emptyVec
        let keys := (List.range len).map (fun i => extract_vector_value keyVec keyT (off + i))
        let values := (List.range len).map (fun i => extract_vector_value valVec valueT (off + i))
        match makeMapFromArrays keys values with
        | some m => m
        | none => Term.atom "map_conversion_failed"
      | _ => Term.atom "model_bad_cell"
    | .unionT => Term.atom ("unsupported_union_type_" ++ toString (duckTypeId DuckType.union))
    | .otherT tid => Term.atom ("unsupported_type_" ++ toString tid)

/-- Struct field loop of `extract_vector_value`: for field `i` the key is a
binary holding the declared name and the value is the recursive extraction
from the i-th struct child vector at the same row index. -/
def extractStructFields (v : DuckVector) (fs : FieldList) (i row : Nat) : List (Term × Term) :=
  match fs with
  | .nilF => []
  | .consF name t rest =>
    (Term.bytes name, extract_vector_value ((v.children.get? i).getD emptyVec) t row) ::
      extractStructFields v rest (i + 1) row

/-- Number of declared struct fields (`duckdb_struct_type_child_count`). -/
def fieldCount : FieldList → Nat
  | .nilF => 0
  | .consF _ _ rest => fieldCount rest + 1
end

/-- Modelled from the spec: the engine's bulk-append cursor
(`duckdb_appender`), which buffers the cells of the current row until
`end_row` commits the row to the target table; committed rows are what a
subsequent query over the table retrieves. The engine object itself is not
part of this repository, so it is modelled as this buffer pair. -/
structure EngineAppender where
  currentRow : List Int
  committedRows : List (List Int)
deriving DecidableEq

/-- Model of `duckdb_append_int8`: a NULL appender handle is rejected by
the engine with DuckDBError; otherwise the (already width-checked) value
is buffered into the current row. -/
def engineAppendInt8 (a : Option EngineAppender) (v : Int) : DuckState × Option EngineAppender :=
  match a with
  | none => (.error, none)
  | some app => (.success, some ⟨app.currentRow ++ [v], app.committedRows⟩)

/-- Model of `duckdb_appender_end_row`: commits the buffered row. -/
def engineEndRow (a : Option EngineAppender) : DuckState × Option EngineAppender :=
  match a with
  | none => (.error, none)
  | some app => (.success, some ⟨[], app.committedRows ++ [app.currentRow]⟩)

/-- Model of `duckdb_appender_destroy` per the DuckDB C API: destroying
through a handle that is NULL (already destroyed) returns DuckDBError and
leaves it untouched; otherwise the appender is torn down and the handle is
set to NULL by the engine itself. -/
def engineAppenderDestroy (a : Option EngineAppender) : DuckState × Option EngineAppender :=
  match a with
  | none => (.error, none)
  | some _ => (.success, none)

/-- Model of `enif_get_int`: succeeds exactly on integer terms that fit in
a C int (32 bits on the host). -/
def enifGetInt (t : Term) : Option Int :=
  match t with
  | .int v => if -(2 ^ 31) ≤ v ∧ v < 2 ^ 31 then some v else none
  | _ => none

/-- Model of `appender_append_int8_nif` (after the resource lookup): reads
the argument with `enif_get_int`, rejects values outside [-128, 127] with
a local range error before any engine call, and otherwise forwards the
`(int8_t)` cast of the value to `duckdb_append_int8`. The engine error
text lookup is modelled by its fallback string. Returns the reply term and
the appender handle afterwards. -/
def appender_append_int8_nif (res : Option EngineAppender) (arg : Term) :
    Term × Option EngineAppender :=
  match enifGetInt arg with
  | none => (Term.atom "badarg", res)
  | some value =>
    if value < -128 ∨ 127 < value then (make_error "Value out of range for int8", res)
    else
      let p := engineAppendInt8 res (wrapSigned 8 value)
      if p.1 = .error then (make_error "Unknown appender append error", p.2)
      else (Term.atom "ok", p.2)

/-- Model of `appender_end_row_nif` (after the resource lookup). -/
def appender_end_row_nif (res : Option EngineAppender) : Term × Option EngineAppender :=
  let p := engineEndRow res
  if p.1 = .error then (make_error "Unknown appender end row error", p.2)
  else (Term.atom "ok", p.2)

/-- Model of `appender_destroy_nif` (after the resource lookup): calls
`duckdb_appender_destroy`; on engine error it reports a failure without
touching the stored handle, on success it additionally overwrites the
stored handle with NULL. -/
def appender_destroy_nif (res : Option EngineAppender) : Term × Option EngineAppender :=
  let p := engineAppenderDestroy res
  if p.1 = .error then (make_error "Failed to destroy appender", p.2)
  else (Term.atom "ok", none)

/-- Model of `appender_resource_destructor`: the automatic resource
teardown only calls `duckdb_appender_destroy` when the stored handle is
non-NULL. The boolean records whether the engine was invoked. -/
def appender_resource_destructor (res : Option EngineAppender) : Bool × Option EngineAppender :=
  match res with
  | none => (false, none)
  | some app => (true, (engineAppenderDestroy (some app)).2)

/-- Length of a `TermList`. -/
def TermList.lengthTL : TermList → Nat
  | .nil => 0
  | .cons _ rest => rest.lengthTL + 1

/-- Latin-1 charlist test used to model `enif_get_string`: every element
is an integer in [0, 255]. -/
def charlistOk : TermList → Bool
  | .nil => true
  | .cons (.int v) rest => decide (0 ≤ v ∧ v ≤ 255) && charlistOk rest
  | .cons _ _ => false

/-- Model of the C helper `bind_parameter`: the outcome of trying, in
order, nil, the boolean atoms, `enif_get_long`, `enif_get_double`,
`enif_inspect_binary` and `enif_get_string` (into a 1024-byte buffer) on
the parameter term, exactly as the source does; terms matching none of
these fall through to DuckDBError. The engine-side `duckdb_bind_*` calls
themselves are modelled as succeeding. -/
def bind_parameter (t : Term) : DuckState :=
  match t with
  | .nil => .success
  | .atom s => if s = "true" ∨ s = "false" then .success else .error
  | .int v => if -(2 ^ 63) ≤ v ∧ v < 2 ^ 63 then .success else .error
  | .dbl _ => .success
  | .bytes _ => .success
  | .list ts => if charlistOk ts ∧ ts.lengthTL < 1024 then .success else .error
  | .tuple _ => .error
  | .map _ => .error

/-- Engine-side view of a prepared statement as consumed by
`prepared_statement_execute_nif`: the declared parameter count
(`duckdb_nparams`) and the outcome the engine would give to
`duckdb_execute_prepared`, with the diagnostic text of
`duckdb_result_error` when it fails (`none` models a NULL message). -/
structure PrepStatement where
  nparams : Nat
  execOutcome : DuckState
  execErrorMsg : Option String

/-- Trace of one `prepared_statement_execute_nif` call: the parameters
bound into the engine in order, whether `duckdb_execute_prepared` ran, and
the reply term. -/
structure ExecTrace where
  binds : List Term
  executed : Bool
  result : Term
deriving DecidableEq

/-- Parameter binding loop of `prepared_statement_execute_nif` followed by
the execution call: the first failing bind aborts with its 1-based index
in the error text; when all binds succeed the statement is executed. -/
def bindLoop (stmt : PrepStatement) : List Term → Nat → List Term → ExecTrace
  | [], _, acc =>
    if stmt.execOutcome = .error then
      ⟨acc, true, make_error (stmt.execErrorMsg.getD "Failed to execute prepared statement")⟩
    else ⟨acc, true, make_ok (Term.atom "result_resource")⟩
  | p :: ps, i, acc =>
    if bind_parameter p = .error then
      ⟨acc, false, make_error ("Failed to bind parameter " ++ toString (i + 1))⟩
    else bindLoop stmt ps (i + 1) (acc ++ [p])

/-- Model of `prepared_statement_execute_nif` (after the resource and list
checks): the declared parameter count is compared with the length of the
parameter list before anything is bound, and only on a match does the
binding loop and execution run. -/
def prepared_statement_execute_nif (stmt : PrepStatement) (params : List Term) : ExecTrace :=
  if params.length ≠ stmt.nparams then
    ⟨[], false, make_error ("Parameter count mismatch: expected " ++ toString stmt.nparams ++
      ", got " ++ toString params.length)⟩
  else bindLoop stmt params 0 []

/-- Key sequence assembled by the MAP case of `extract_vector_value`: the
recursive extraction of entries off..off+len-1 from the first struct child
of the list child vector. -/
def mapKeys (vec : DuckVector) (keyT : LogicalType) (off len : Nat) : List Term :=
  (List.range len).map (fun i =>
    extract_vector_value
      (((((vec.children.get? 0).getD emptyVec).children.get? 0).getD emptyVec)) keyT (off + i))

/-- Value sequence assembled by the MAP case of `extract_vector_value`,
from the second struct child of the list child vector. -/
def mapValues (vec : DuckVector) (valT : LogicalType) (off len : Nat) : List Term :=
  (List.range len).map (fun i =>
    extract_vector_value
      (((((vec.children.get? 0).getD emptyVec).children.get? 1).getD emptyVec)) valT (off + i))

theorem spanDigits_all_digits (ds : List Char) (h : ∀ c ∈ ds, isDigitChar c = true) :
    spanDigits ds = (ds, []) := by
  induction ds with
  | nil => rfl
  | cons c cs ih =>
    have hc : isDigitChar c = true := h c (List.mem_cons_self c cs)
    have ihh := ih (fun x hx => h x (List.mem_cons_of_mem c hx))
    simp [spanDigits, hc, ihh]

theorem strtollModel_of_decimalRep (s : String) (v : Int) (h : IsDecimalRep s v) :
    strtollModel s = (max llongMin (min llongMax v), true) := by
  obtain ⟨ds, hne, hdig, hcase⟩ := h
  rcases hcase with ⟨hpos, hdata, hval⟩ | ⟨hneg, hdata, hval⟩
  · have hspan := spanDigits_all_digits ds hdig
    have hsign : splitSign ds = (false, ds) := by
      cases ds with
      | nil => exact absurd rfl hne
      | cons c cs =>
        have hc : isDigitChar c = true := hdig c (List.mem_cons_self c cs)
        have hc1 : ¬ c = '-' := by
          intro hEq; subst hEq; simp [isDigitChar] at hc
        have hc2 : ¬ c = '+' := by
          intro hEq; subst hEq; simp [isDigitChar] at hc
        simp [splitSign, hc1, hc2]
    simp only [strtollModel, hdata, hsign, hspan]
    have hde : ds.isEmpty = false := by
      cases ds with
      | nil => exact absurd rfl hne
      | cons c cs => rfl
    simp [hde, hval]
  · have hspan := spanDigits_all_digits ds hdig
    have hsign : splitSign ('-' :: ds) = (true, ds) := by simp [splitSign]
    simp only [strtollModel, hdata, hsign, hspan]
    have hde : ds.isEmpty = false := by
      cases ds with
      | nil => exact absurd rfl hne
      | cons c cs => rfl
    simp [hde, hval]

theorem hugeint_row_eval (s : String) :
    hugeint_to_elixir_integer_via_varchar (some s) =
      if (strtollModel s).2 = true ∧ (strtollModel s).1 ≠ llongMax ∧ (strtollModel s).1 ≠ llongMin
      then Term.int (strtollModel s).1 else Term.bytes s := rfl

theorem hugeint_row_of_decimalRep (s : String) (v : Int) (h : IsDecimalRep s v) :
    hugeint_to_elixir_integer_via_varchar (some s) =
      if llongMin < v ∧ v < llongMax then Term.int v else Term.bytes s := by
  have hst := strtollModel_of_decimalRep s v h
  rw [hugeint_row_eval, hst]
  have eMax : llongMax = 9223372036854775807 := rfl
  have eMin : llongMin = -9223372036854775808 := rfl
  by_cases hc : llongMin < v ∧ v < llongMax
  · have hmin : min llongMax v = v := min_eq_right (le_of_lt hc.2)
    have hmax : max llongMin v = v := max_eq_right (le_of_lt hc.1)
    rw [hmin, hmax]
    conv_rhs => rw [if_pos hc]
    have h1 : v ≠ llongMax := by rw [eMax] at hc ⊢; omega
    have h2 : v ≠ llongMin := by rw [eMin] at hc ⊢; omega
    rw [if_pos (show ((v, true).2 = true ∧ (v, true).1 ≠ llongMax ∧ (v, true).1 ≠ llongMin)
      from ⟨rfl, h1, h2⟩)]
  · conv_rhs => rw [if_neg hc]
    have hd : v ≤ llongMin ∨ llongMax ≤ v := by rw [eMax, eMin] at hc ⊢; omega
    rcases hd with hlo | hhi
    · have hmin : min llongMax v = v := min_eq_right (by rw [eMin] at hlo; rw [eMax]; omega)
      have hmax : max llongMin v = llongMin := max_eq_left hlo
      rw [hmin, hmax, if_neg]
      intro hcon
      exact hcon.2.2 rfl
    · have hmin : min llongMax v = llongMax := min_eq_left hhi
      have hmax : max llongMin llongMax = llongMax := max_eq_right (by rw [eMax, eMin]; omega)
      rw [hmin, hmax, if_neg]
      intro hcon
      exact hcon.2.1 rfl

theorem readCell_data_ne_none (v : DuckVector) (row : Nat) (c : Cell)
    (h : readCell v row = some c) : v.data ≠ none := by
  intro hnone
  rw [readCell, hnone] at h
  exact Option.noConfusion h

theorem extract_hugeint_chunk (vec : DuckVector) (row : Nat) (up : Int) (lo : Nat)
    (hread : readCell vec row = some (.hugeintC up lo)) (hval : validAt vec row = true)
    (hup1 : -(2 ^ 63) ≤ up) (hup2 : up < 2 ^ 63) (hlo : lo < 2 ^ 64) :
    extract_vector_value vec .hugeintT row =
      if -(2 ^ 63) ≤ up * 2 ^ 64 + lo ∧ up * 2 ^ 64 + lo < 2 ^ 63
      then Term.int (up * 2 ^ 64 + lo)
      else Term.bytes ("hugeint:" ++ toString up ++ ":" ++ toString lo) := by
  have hdata := readCell_data_ne_none vec row _ hread
  rw [extract_vector_value]
  rw [if_neg (by simp [isComplexType, hdata])]
  rw [if_neg (by rw [hval]; simp)]
  simp only [hread]
  by_cases h0 : up = 0 ∧ lo ≤ 9223372036854775807
  · rw [if_pos h0, if_pos (by omega)]
    have : up * 2 ^ 64 + (lo : Int) = (lo : Int) := by
      rw [h0.1]; ring
    rw [this]
  · rw [if_neg h0]
    by_cases h1 : up = -1 ∧ 9223372036854775808 ≤ lo
    · rw [if_pos h1, if_pos (by omega)]
      have : up * 2 ^ 64 + (lo : Int) = (lo : Int) - 2 ^ 64 := by
        rw [h1.1]; ring
      rw [this]
    · rw [if_neg h1, if_neg (by omega)]

/-- Claim C1, counterexample: the hugeint value 2^63-1 fits the host's
signed 64-bit range, yet the row-oriented extraction returns its decimal
string, not a native integer, because the `strtoll`-based fast path
excludes the value LLONG_MAX (it doubles as the overflow sentinel). -/
theorem c1_counterexample :
    hugeint_to_elixir_integer_via_varchar (some "9223372036854775807") =
      Term.bytes "9223372036854775807" ∧
    (9223372036854775807 : Int) = 2 ^ 63 - 1 ∧
    Term.bytes "9223372036854775807" ≠ Term.int 9223372036854775807 := by
  refine ⟨by decide, by decide, by decide⟩

/-- Claim C1, amended: the row-oriented path returns a native integer
exactly for hugeint values strictly between LLONG_MIN and LLONG_MAX and
otherwise returns the exact decimal string (which reparses to the value);
the chunk/vector path returns a native integer exactly for values in the
full signed 64-bit range [-2^63, 2^63-1] and otherwise a lossless
`hugeint:upper:lower` component string, which is not a decimal-digit
rendering of the value. -/
theorem c1_hugeint_extraction :
    (∀ (s : String) (v : Int), IsDecimalRep s v →
      hugeint_to_elixir_integer_via_varchar (some s) =
        if llongMin < v ∧ v < llongMax then Term.int v else Term.bytes s)
    ∧ (∀ (vec : DuckVector) (row : Nat) (up : Int) (lo : Nat),
      readCell vec row = some (.hugeintC up lo) → validAt vec row = true →
      -(2 ^ 63) ≤ up → up < 2 ^ 63 → lo < 2 ^ 64 →
      extract_vector_value vec .hugeintT row =
        if -(2 ^ 63) ≤ up * 2 ^ 64 + lo ∧ up * 2 ^ 64 + lo < 2 ^ 63
        then Term.int (up * 2 ^ 64 + lo)
        else Term.bytes ("hugeint:" ++ toString up ++ ":" ++ toString lo)) :=
  ⟨hugeint_row_of_decimalRep, extract_hugeint_chunk⟩

/-- Witness for c1_hugeint_extraction at concrete inputs: the in-range
hugeint 5 comes back as a native integer through the row path, and the
out-of-range hugeint 2^64 (upper word 1, lower word 0) comes back as the
component string through the chunk path. -/
theorem c1_witness :
    hugeint_to_elixir_integer_via_varchar (some "5") = Term.int 5 ∧
    extract_vector_value (DuckVector.mk (some [Cell.hugeintC 1 0]) none []) .hugeintT 0 =
      Term.bytes "hugeint:1:0" := by
  constructor
  · have h := c1_hugeint_extraction.1 "5" 5
      ⟨['5'], by decide, by decide, Or.inl ⟨by decide, by decide, by decide⟩⟩
    rw [h, if_pos (by decide)]
  · have h := c1_hugeint_extraction.2 (DuckVector.mk (some [Cell.hugeintC 1 0]) none [])
      0 1 0 rfl rfl (by decide) (by decide) (by decide)
    rw [h, if_neg (by decide)]
    decide

/-- Claim C2: in the Row Materializer, whenever some column is UUID-typed
and there is more than one column, every cell of every row is
short-circuited to nil; a single-column UUID result extracts normally, a
non-null UUID cell yielding its varchar string form. -/
theorem c2_rowmat_uuid_shortcircuit :
    (∀ (res : MaterializedResult), hasUuidCol res.columnTypes = true →
       1 < res.columnTypes.length →
       ∀ r : Nat, ∀ cell ∈ resultRow res r, cell = Term.nil)
    ∧ (∀ (res : MaterializedResult) (r : Nat) (s : String),
       res.columnTypes = [DuckType.uuid] →
       res.isNull 0 r = false →
       res.varchar 0 r = some s → 0 < s.length → s ≠ "NULL" →
       resultRow res r = [Term.bytes s]) := by
  constructor
  · intro res hu hl r cell hcell
    rw [resultRow, if_pos ⟨hu, hl⟩] at hcell
    simp only [List.mem_map] at hcell
    obtain ⟨x, _, he⟩ := hcell
    exact he.symm
  · intro res r s hts hnull hvc hlen hne
    rw [resultRow, hts]
    rw [if_neg (by intro hcon; exact absurd hcon.2 (by decide))]
    have hr : (List.range (1 : Nat)).map (fun c => rowCell res c r) = [rowCell res 0 r] := rfl
    simp only [List.length_cons, List.length_nil] at *
    rw [hr]
    have hcell : rowCell res 0 r = Term.bytes s := by
      rw [rowCell]
      simp only [hts, hnull, List.getD]
      rw [if_neg (by simp)]
      rw [if_pos (show ([DuckType.uuid].get? 0).getD DuckType.unknown = DuckType.uuid from rfl)]
      rw [hvc]
      simp only [strictVarcharTerm]
      rw [if_pos ⟨hlen, hne⟩]
    rw [hcell]

/-- Witness for c2_rowmat_uuid_shortcircuit: a two-column result with a
UUID column yields nil cells, and a one-column UUID result yields the
varchar string of the cell. -/
theorem c2_witness :
    (resultRow ⟨[DuckType.uuid, DuckType.integer], 1, fun _ _ => false, fun _ _ => some "x",
        fun _ _ => FloatVal.nan, fun _ _ => none⟩ 0).getD 0 (Term.atom "q") = Term.nil
    ∧ resultRow ⟨[DuckType.uuid], 1, fun _ _ => false, fun _ _ => some "ab",
        fun _ _ => FloatVal.nan, fun _ _ => none⟩ 0 = [Term.bytes "ab"] := by
  constructor
  · have h := c2_rowmat_uuid_shortcircuit.1 ⟨[DuckType.uuid, DuckType.integer], 1,
      fun _ _ => false, fun _ _ => some "x", fun _ _ => FloatVal.nan, fun _ _ => none⟩
      (by decide) (by decide) 0
    exact h _ (by decide)
  · exact c2_rowmat_uuid_shortcircuit.2 ⟨[DuckType.uuid], 1, fun _ _ => false,
      fun _ _ => some "ab", fun _ _ => FloatVal.nan, fun _ _ => none⟩ 0 "ab" rfl rfl rfl
      (by decide) (by decide)

theorem rowCell_float_sentinels (res : MaterializedResult) (c r : Nat) (s : String)
    (ht : res.columnTypes.getD c DuckType.unknown = DuckType.float ∨
      res.columnTypes.getD c DuckType.unknown = DuckType.double)
    (hnull : res.isNull c r = false) (hvc : res.varchar c r = some s) :
    rowCell res c r = rowFloatTerm (res.cellFloat c r) := by
  rcases ht with h | h <;> (rw [rowCell, h, hnull]; simp [hvc])

theorem extract_float_chunk (vec : DuckVector) (row : Nat) (f : FloatVal)
    (hval : validAt vec row = true) (hread : readCell vec row = some (.floatC f)) :
    extract_vector_value vec .floatT row = Term.dbl f := by
  have hdata := readCell_data_ne_none vec row _ hread
  rw [extract_vector_value]
  rw [if_neg (by simp [isComplexType, hdata])]
  rw [if_neg (by rw [hval]; simp)]
  simp [hread]

theorem extract_double_chunk (vec : DuckVector) (row : Nat) (f : FloatVal)
    (hval : validAt vec row = true) (hread : readCell vec row = some (.doubleC f)) :
    extract_vector_value vec .doubleT row = Term.dbl f := by
  have hdata := readCell_data_ne_none vec row _ hread
  rw [extract_vector_value]
  rw [if_neg (by simp [isComplexType, hdata])]
  rw [if_neg (by rw [hval]; simp)]
  simp [hread]

/-- Claim C3, counterexample: the chunk/vector Scalar Extractor returns a
NaN double cell as an ordinary double term, not as the distinguishable NaN
sentinel the row-oriented path uses. -/
theorem c3_counterexample :
    extract_vector_value (DuckVector.mk (some [Cell.doubleC FloatVal.nan]) none []) .doubleT 0 =
      Term.dbl FloatVal.nan ∧
    Term.dbl FloatVal.nan ≠ Term.atom "nan" := by
  exact ⟨by decide, by decide⟩

/-- Claim C3, amended: only the row-oriented path special-cases NaN and
the infinities into the sentinel atoms nan / infinity /
negative_infinity (finite values staying ordinary doubles); the
chunk/vector path returns every float or double cell, NaN and infinities
included, as an ordinary double term. -/
theorem c3_float_sentinels :
    (∀ (res : MaterializedResult) (c r : Nat) (s : String),
      (res.columnTypes.getD c DuckType.unknown = DuckType.float ∨
        res.columnTypes.getD c DuckType.unknown = DuckType.double) →
      res.isNull c r = false → res.varchar c r = some s →
      rowCell res c r = rowFloatTerm (res.cellFloat c r))
    ∧ (∀ (vec : DuckVector) (row : Nat) (f : FloatVal),
      validAt vec row = true →
      (readCell vec row = some (.floatC f) →
        extract_vector_value vec .floatT row = Term.dbl f)
      ∧ (readCell vec row = some (.doubleC f) →
        extract_vector_value vec .doubleT row = Term.dbl f)) :=
  ⟨rowCell_float_sentinels, fun vec row f hval =>
    ⟨extract_float_chunk vec row f hval, extract_double_chunk vec row f hval⟩⟩

/-- Witness for c3_float_sentinels: a NaN float cell through the row path
gives the nan atom, and a negative-infinity double cell through the chunk
path stays an ordinary double term. -/
theorem c3_witness :
    rowCell ⟨[DuckType.float], 1, fun _ _ => false, fun _ _ => some "nan",
      fun _ _ => FloatVal.nan, fun _ _ => none⟩ 0 0 = Term.atom "nan"
    ∧ extract_vector_value (DuckVector.mk (some [Cell.doubleC FloatVal.negInf]) none [])
        .doubleT 0 = Term.dbl FloatVal.negInf := by
  constructor
  · have h := c3_float_sentinels.1 ⟨[DuckType.float], 1, fun _ _ => false,
      fun _ _ => some "nan", fun _ _ => FloatVal.nan, fun _ _ => none⟩ 0 0 "nan"
      (Or.inl rfl) rfl rfl
    rw [h]
    decide
  · exact (c3_float_sentinels.2 (DuckVector.mk (some [Cell.doubleC FloatVal.negInf]) none [])
      0 FloatVal.negInf rfl).2 rfl

theorem extract_decimal_narrow (vec : DuckVector) (row : Nat) (width scale : Nat) (raw : Int)
    (internal : DuckType)
    (hint : internal = DuckType.smallint ∨ internal = DuckType.integer ∨
      internal = DuckType.bigint)
    (hval : validAt vec row = true) (hread : readCell vec row = some (.intC raw)) :
    extract_vector_value vec (.decimalT width scale internal) row = decimalFinish scale raw := by
  have hdata := readCell_data_ne_none vec row _ hread
  rcases hint with h | h | h <;> subst h <;>
    (rw [extract_vector_value]
     rw [if_neg (by simp [isComplexType, hdata])]
     rw [if_neg (by rw [hval]; simp)]
     simp [hread])

theorem extract_decimal_huge (vec : DuckVector) (row : Nat) (width scale : Nat)
    (up : Int) (lo : Nat)
    (hval : validAt vec row = true) (hread : readCell vec row = some (.hugeintC up lo)) :
    extract_vector_value vec (.decimalT width scale DuckType.hugeint) row =
      Term.bytes (g10String (decimalHugeToDouble scale up lo)) := by
  have hdata := readCell_data_ne_none vec row _ hread
  rw [extract_vector_value]
  rw [if_neg (by simp [isComplexType, hdata])]
  rw [if_neg (by rw [hval]; simp)]
  simp [hread]

/-- Claim C4, counterexample: a decimal cell with 128-bit (hugeint)
internal storage, scale 0 and raw stored value 2 comes back as the binary
string produced by the double fallback, not as the exact integer 2 the
claim requires for every storage width. -/
theorem c4_counterexample :
    extract_vector_value (DuckVector.mk (some [Cell.hugeintC 0 2]) none [])
      (.decimalT 38 0 DuckType.hugeint) 0 = Term.bytes "2" ∧
    Term.bytes "2" ≠ Term.int 2 := by
  refine ⟨?_, by decide⟩
  rw [extract_decimal_huge (DuckVector.mk (some [Cell.hugeintC 0 2]) none []) 0 38 0 0 2
    rfl rfl]
  have e2 : decimalHugeToDouble 0 0 2 = FloatVal.finite 2 := by
    rw [decimalHugeToDouble]
    norm_num
  rw [e2]
  decide

/-- Claim C4, amended: for decimal cells whose internal storage is the
16/32/64-bit integer widths the claimed behavior holds (scale 0 gives the
exact raw integer, positive scale gives the raw integer divided by
10^scale as a double); for 128-bit (hugeint) internal storage the code
instead converts through `duckdb_decimal_to_double` and returns the
`%.10g`-formatted text as a binary, not an integer or double term. -/
theorem c4_decimal_extraction :
    (∀ (vec : DuckVector) (row width scale : Nat) (raw : Int) (internal : DuckType),
      (internal = DuckType.smallint ∨ internal = DuckType.integer ∨
        internal = DuckType.bigint) →
      validAt vec row = true → readCell vec row = some (.intC raw) →
      extract_vector_value vec (.decimalT width scale internal) row =
        if scale = 0 then Term.int raw else Term.dbl (.finite ((raw : ℚ) / 10 ^ scale)))
    ∧ (∀ (vec : DuckVector) (row width scale : Nat) (up : Int) (lo : Nat),
      validAt vec row = true → readCell vec row = some (.hugeintC up lo) →
      extract_vector_value vec (.decimalT width scale DuckType.hugeint) row =
        Term.bytes (g10String (decimalHugeToDouble scale up lo))) := by
  constructor
  · intro vec row width scale raw internal hint hval hread
    rw [extract_decimal_narrow vec row width scale raw internal hint hval hread]
    rw [decimalFinish]
  · intro vec row width scale up lo hval hread
    exact extract_decimal_huge vec row width scale up lo hval hread

/-- Witness for c4_decimal_extraction: a 32-bit-stored decimal with scale
0 gives the exact integer, with scale 1 gives the divided double, and a
hugeint-stored decimal gives the formatted binary. -/
theorem c4_witness :
    extract_vector_value (DuckVector.mk (some [Cell.intC 7]) none [])
      (.decimalT 9 0 DuckType.integer) 0 = Term.int 7
    ∧ extract_vector_value (DuckVector.mk (some [Cell.intC 25]) none [])
      (.decimalT 9 1 DuckType.integer) 0 = Term.dbl (.finite (((25 : Int) : ℚ) / 10 ^ (1 : Nat)))
    ∧ extract_vector_value (DuckVector.mk (some [Cell.hugeintC 0 2]) none [])
      (.decimalT 38 2 DuckType.hugeint) 0 =
        Term.bytes (g10String (decimalHugeToDouble 2 0 2)) := by
  refine ⟨?_, ?_, ?_⟩
  · have h := c4_decimal_extraction.1 (DuckVector.mk (some [Cell.intC 7]) none []) 0 9 0 7
      DuckType.integer (Or.inr (Or.inl rfl)) rfl rfl
    rw [h, if_pos rfl]
  · have h := c4_decimal_extraction.1 (DuckVector.mk (some [Cell.intC 25]) none []) 0 9 1 25
      DuckType.integer (Or.inr (Or.inl rfl)) rfl rfl
    rw [h, if_neg (by decide)]
  · exact c4_decimal_extraction.2 (DuckVector.mk (some [Cell.hugeintC 0 2]) none []) 0 38 2 0 2
      rfl rfl

theorem toPattern64_lt (v : Int) : toPattern64 v < 2 ^ 64 := by
  rw [toPattern64]
  have hlt := Int.emod_lt_of_pos v (show (0:Int) < 2 ^ 64 by positivity)
  have hnn := Int.emod_nonneg v (show ((2:Int) ^ 64) ≠ 0 by positivity)
  omega

theorem hexDigitChar_valid (d : Nat) (h : d < 16) :
    isHexDigitChar (hexDigitChar d) = true ∧ hexVal (hexDigitChar d) = d := by
  interval_cases d <;> exact ⟨by decide, by decide⟩

theorem readHexRun_hexPad (w : Nat) : ∀ (n acc : Nat) (rest : List Char), n < 16 ^ w →
    readHexRun (hexPad w n ++ rest) w acc = some (acc * 16 ^ w + n, rest) := by
  induction w with
  | zero =>
    intro n acc rest h
    have h0 : n = 0 := by simpa using h
    subst h0
    simp [hexPad, readHexRun]
  | succ w ih =>
    intro n acc rest h
    have hd : n / 16 ^ w < 16 := by
      apply Nat.div_lt_of_lt_mul
      rw [pow_succ] at h
      exact h
    obtain ⟨hdig, hvl⟩ := hexDigitChar_valid _ hd
    rw [hexPad, List.cons_append]
    have hrw : readHexRun (hexDigitChar (n / 16 ^ w) :: (hexPad w (n % 16 ^ w) ++ rest))
        (w + 1) acc =
        if isHexDigitChar (hexDigitChar (n / 16 ^ w)) = true then
          readHexRun (hexPad w (n % 16 ^ w) ++ rest) w (acc * 16 + hexVal (hexDigitChar (n / 16 ^ w)))
        else none := rfl
    rw [hrw, if_pos hdig, hvl]
    rw [ih (n % 16 ^ w) (acc * 16 + n / 16 ^ w) rest (Nat.mod_lt _ (by positivity))]
    have harith : (acc * 16 + n / 16 ^ w) * 16 ^ w + n % 16 ^ w = acc * 16 ^ (w + 1) + n := by
      calc (acc * 16 + n / 16 ^ w) * 16 ^ w + n % 16 ^ w
          = acc * (16 ^ w * 16) + (16 ^ w * (n / 16 ^ w) + n % 16 ^ w) := by ring
        _ = acc * 16 ^ (w + 1) + n := by rw [Nat.div_add_mod, pow_succ]
    rw [harith]

theorem uuid_parse_format (up64 lo : Nat) (h1 : up64 < 2 ^ 64) (h2 : lo < 2 ^ 64) :
    uuid_parse (uuid_format up64 lo) = some (up64, lo) := by
  have b1 : up64 / 2 ^ 32 % 2 ^ 32 < 16 ^ 8 := by
    have e : (16:Nat) ^ 8 = 2 ^ 32 := by norm_num
    rw [e]
    exact Nat.mod_lt _ (by positivity)
  have b2 : up64 / 2 ^ 16 % 2 ^ 16 < 16 ^ 4 := by
    have e : (16:Nat) ^ 4 = 2 ^ 16 := by norm_num
    rw [e]
    exact Nat.mod_lt _ (by positivity)
  have b3 : up64 % 2 ^ 16 < 16 ^ 4 := by
    have e : (16:Nat) ^ 4 = 2 ^ 16 := by norm_num
    rw [e]
    exact Nat.mod_lt _ (by positivity)
  have b4 : lo / 2 ^ 48 % 2 ^ 16 < 16 ^ 4 := by
    have e : (16:Nat) ^ 4 = 2 ^ 16 := by norm_num
    rw [e]
    exact Nat.mod_lt _ (by positivity)
  have b5 : lo % 2 ^ 48 < 16 ^ 12 := by
    have e : (16:Nat) ^ 12 = 2 ^ 48 := by norm_num
    rw [e]
    exact Nat.mod_lt _ (by positivity)
  rw [uuid_parse, uuid_format]
  have hdata : (String.mk (hexPad 8 (up64 / 2 ^ 32 % 2 ^ 32) ++
      '-' :: hexPad 4 (up64 / 2 ^ 16 % 2 ^ 16) ++
      '-' :: hexPad 4 (up64 % 2 ^ 16) ++
      '-' :: hexPad 4 (lo / 2 ^ 48 % 2 ^ 16) ++
      '-' :: hexPad 12 (lo % 2 ^ 48))).data =
      hexPad 8 (up64 / 2 ^ 32 % 2 ^ 32) ++
      ('-' :: (hexPad 4 (up64 / 2 ^ 16 % 2 ^ 16) ++
      ('-' :: (hexPad 4 (up64 % 2 ^ 16) ++
      ('-' :: (hexPad 4 (lo / 2 ^ 48 % 2 ^ 16) ++
      ('-' :: (hexPad 12 (lo % 2 ^ 48) ++ [])))))))) := by
    simp
  rw [hdata]
  rw [readHexRun_hexPad 8 _ 0 _ b1]
  simp only [Option.bind_eq_bind, Option.some_bind, expectDash, if_pos]
  rw [readHexRun_hexPad 4 _ 0 _ b2]
  simp only [Option.some_bind, expectDash, if_pos]
  rw [readHexRun_hexPad 4 _ 0 _ b3]
  simp only [Option.some_bind, expectDash, if_pos]
  rw [readHexRun_hexPad 4 _ 0 _ b4]
  simp only [Option.some_bind, expectDash, if_pos]
  rw [readHexRun_hexPad 12 _ 0 _ b5]
  simp only [Option.some_bind, if_true]
  simp only [Option.some.injEq, Prod.mk.injEq]
  norm_num
  constructor
  · omega
  · omega

/-- Claim C5: the chunk/vector extractor formats a UUID cell (a 128-bit
hugeint) as the canonical 8-4-4-4-12 lowercase hex grouping whose first
group is the upper 32 bits of the high word, and the engine's parser (the
spec's DCE byte order) reproduces the 128-bit pattern exactly:
parse (format x) = x, for every stored value. -/
theorem c5_uuid_roundtrip :
    ∀ (vec : DuckVector) (row : Nat) (up : Int) (lo : Nat),
      readCell vec row = some (.hugeintC up lo) → validAt vec row = true → lo < 2 ^ 64 →
      extract_vector_value vec .uuidT row = Term.bytes (uuid_format (toPattern64 up) lo)
      ∧ uuid_parse (uuid_format (toPattern64 up) lo) = some (toPattern64 up, lo) := by
  intro vec row up lo hread hval hlo
  constructor
  · have hdata := readCell_data_ne_none vec row _ hread
    rw [extract_vector_value]
    rw [if_neg (by simp [isComplexType, hdata])]
    rw [if_neg (by rw [hval]; simp)]
    simp [hread]
  · exact uuid_parse_format _ _ (toPattern64_lt up) hlo

/-- Witness for c5_uuid_roundtrip at the all-zero and all-F UUIDs. -/
theorem c5_witness :
    (extract_vector_value (DuckVector.mk (some [Cell.hugeintC 0 0]) none []) .uuidT 0 =
      Term.bytes "00000000-0000-0000-0000-000000000000"
    ∧ uuid_parse "00000000-0000-0000-0000-000000000000" = some (0, 0))
    ∧ (extract_vector_value
        (DuckVector.mk (some [Cell.hugeintC (-1) 18446744073709551615]) none []) .uuidT 0 =
      Term.bytes "ffffffff-ffff-ffff-ffff-ffffffffffff"
    ∧ uuid_parse "ffffffff-ffff-ffff-ffff-ffffffffffff" =
        some (18446744073709551615, 18446744073709551615)) := by
  constructor
  · have h := c5_uuid_roundtrip (DuckVector.mk (some [Cell.hugeintC 0 0]) none []) 0 0 0
      rfl rfl (by decide)
    have e : uuid_format (toPattern64 0) 0 = "00000000-0000-0000-0000-000000000000" := by decide
    have h2 := h.2
    rw [e] at h2
    exact ⟨by rw [h.1, e], by rw [h2]; decide⟩
  · have h := c5_uuid_roundtrip
      (DuckVector.mk (some [Cell.hugeintC (-1) 18446744073709551615]) none []) 0
      (-1) 18446744073709551615 rfl rfl (by decide)
    have e : uuid_format (toPattern64 (-1)) 18446744073709551615 =
        "ffffffff-ffff-ffff-ffff-ffffffffffff" := by decide
    have h2 := h.2
    rw [e] at h2
    exact ⟨by rw [h.1, e], by rw [h2]; decide⟩

/-- Claim C6, counterexample: a map cell whose two entries carry the same
key "a" is extracted to the failure marker atom map_conversion_failed, not
to a keyed value with last-write-wins semantics. -/
theorem c6_counterexample :
    extract_vector_value
      (DuckVector.mk (some [Cell.listEntryC 0 2]) none
        [DuckVector.mk none none
          [DuckVector.mk (some [Cell.stringC "a", Cell.stringC "a"]) none [],
           DuckVector.mk (some [Cell.intC 1, Cell.intC 2]) none []]])
      (.mapT .varcharT .integer) 0 = Term.atom "map_conversion_failed" := by
  decide

/-- Claim C6, amended: because `enif_make_map_from_arrays` rejects
duplicate keys, a map cell whose extracted key sequence contains a
duplicate produces the failure marker atom map_conversion_failed instead
of a keyed value; only a duplicate-free key sequence produces a keyed
value, which pairs the key and value sequences positionally (no
last-write-wins collapsing ever occurs). -/
theorem c6_map_duplicate_keys :
    ∀ (vec : DuckVector) (row : Nat) (keyT valT : LogicalType) (off len : Nat),
      readCell vec row = some (.listEntryC off len) → validAt vec row = true →
      ((hasDupKey (mapKeys vec keyT off len) = true →
        extract_vector_value vec (.mapT keyT valT) row = Term.atom "map_conversion_failed")
      ∧ (hasDupKey (mapKeys vec keyT off len) = false →
        extract_vector_value vec (.mapT keyT valT) row =
          Term.map (.ofList ((mapKeys vec keyT off len).zip (mapValues vec valT off len))))) := by
  intro vec row keyT valT off len hread hval
  have hbody : extract_vector_value vec (.mapT keyT valT) row =
      (match makeMapFromArrays (mapKeys vec keyT off len) (mapValues vec valT off len) with
       | some m => m
       | none => Term.atom "map_conversion_failed") := by
    rw [extract_vector_value]
    rw [if_neg (by simp [isComplexType])]
    rw [if_neg (by rw [hval]; simp)]
    simp [hread, mapKeys, mapValues]
  constructor
  · intro hdup
    rw [hbody]
    simp [makeMapFromArrays, hdup]
  · intro hdup
    rw [hbody]
    simp [makeMapFromArrays, hdup]

/-- Witness for c6_map_duplicate_keys: distinct keys a, b give the keyed
value with both pairs; duplicate keys b, b give the failure marker. -/
theorem c6_witness :
    extract_vector_value
      (DuckVector.mk (some [Cell.listEntryC 0 2]) none
        [DuckVector.mk none none
          [DuckVector.mk (some [Cell.stringC "a", Cell.stringC "b"]) none [],
           DuckVector.mk (some [Cell.intC 1, Cell.intC 2]) none []]])
      (.mapT .varcharT .integer) 0 =
      Term.map (.ofList [(Term.bytes "a", Term.int 1), (Term.bytes "b", Term.int 2)])
    ∧ extract_vector_value
      (DuckVector.mk (some [Cell.listEntryC 0 2]) none
        [DuckVector.mk none none
          [DuckVector.mk (some [Cell.stringC "b", Cell.stringC "b"]) none [],
           DuckVector.mk (some [Cell.intC 3, Cell.intC 4]) none []]])
      (.mapT .varcharT .integer) 0 = Term.atom "map_conversion_failed" := by
  constructor
  · have h := (c6_map_duplicate_keys
      (DuckVector.mk (some [Cell.listEntryC 0 2]) none
        [DuckVector.mk none none
          [DuckVector.mk (some [Cell.stringC "a", Cell.stringC "b"]) none [],
           DuckVector.mk (some [Cell.intC 1, Cell.intC 2]) none []]])
      0 .varcharT .integer 0 2 rfl rfl).2 (by decide)
    rw [h]
    decide
  · exact (c6_map_duplicate_keys
      (DuckVector.mk (some [Cell.listEntryC 0 2]) none
        [DuckVector.mk none none
          [DuckVector.mk (some [Cell.stringC "b", Cell.stringC "b"]) none [],
           DuckVector.mk (some [Cell.intC 3, Cell.intC 4]) none []]])
      0 .varcharT .integer 0 2 rfl rfl).1 (by decide)

/-- Claim C9: for a non-null enum cell, a stored index inside the declared
dictionary resolves to the dictionary string at that index, and an index
at or beyond the dictionary size yields the invalid_enum_value error
marker instead of an out-of-bounds read. -/
theorem c9_enum_bounds :
    ∀ (vec : DuckVector) (row : Nat) (dict : List String) (idx : Nat) (internal : DuckType),
      (internal = DuckType.utinyint ∨ internal = DuckType.usmallint ∨
        internal = DuckType.uinteger) →
      readCell vec row = some (.uintC idx) → validAt vec row = true →
      ((∀ s, dict.get? idx = some s →
        extract_vector_value vec (.enumT internal dict) row = Term.bytes s)
      ∧ (dict.length ≤ idx →
        extract_vector_value vec (.enumT internal dict) row = Term.atom "invalid_enum_value")) := by
  intro vec row dict idx internal hint hread hval
  have hdata := readCell_data_ne_none vec row _ hread
  have hbody : extract_vector_value vec (.enumT internal dict) row =
      (if idx < dict.length then
        (match dict.get? idx with
         | some s => Term.bytes s
         | none => Term.atom "invalid_enum_value")
       else Term.atom "invalid_enum_value") := by
    rcases hint with h | h | h <;> subst h <;>
      (rw [extract_vector_value]
       rw [if_neg (by simp [isComplexType, hdata])]
       rw [if_neg (by rw [hval]; simp)]
       simp [hread])
  constructor
  · intro s hs
    obtain ⟨hlt, _⟩ := List.get?_eq_some.mp hs
    rw [hbody, if_pos hlt, hs]
  · intro hge
    rw [hbody, if_neg (by omega)]

/-- Witness for c9_enum_bounds: index 1 in the dictionary red/green gives
green, index 5 gives the invalid_enum_value marker. -/
theorem c9_witness :
    extract_vector_value (DuckVector.mk (some [Cell.uintC 1]) none [])
      (.enumT DuckType.utinyint ["red", "green"]) 0 = Term.bytes "green"
    ∧ extract_vector_value (DuckVector.mk (some [Cell.uintC 5]) none [])
      (.enumT DuckType.utinyint ["red", "green"]) 0 = Term.atom "invalid_enum_value" := by
  constructor
  · exact (c9_enum_bounds (DuckVector.mk (some [Cell.uintC 1]) none []) 0 ["red", "green"] 1
      DuckType.utinyint (Or.inl rfl) rfl rfl).1 "green" rfl
  · exact (c9_enum_bounds (DuckVector.mk (some [Cell.uintC 5]) none []) 0 ["red", "green"] 5
      DuckType.utinyint (Or.inl rfl) rfl rfl).2 (by decide)

theorem wrapSigned8_of_range (v : Int) (h1 : -128 ≤ v) (h2 : v ≤ 127) :
    wrapSigned 8 v = v := by
  rw [wrapSigned]
  norm_num
  omega

/-- Claim C7, counterexample: the supplied integer 2^31 is outside
[-128, 127], yet the call does not fail with the range error: it fails
with badarg, because `enif_get_int` cannot read a value beyond the C int
range (the engine is still untouched). -/
theorem c7_counterexample :
    appender_append_int8_nif (some ⟨[], []⟩) (Term.int (2 ^ 31)) =
      (Term.atom "badarg", some ⟨[], []⟩)
    ∧ Term.atom "badarg" ≠ make_error "Value out of range for int8"
    ∧ ((2 ^ 31 : Int) < -128 ∨ (127 : Int) < 2 ^ 31) := by
  exact ⟨rfl, by decide, by decide⟩

/-- Claim C7, amended: for supplied integers readable by `enif_get_int`
(those within the C int range), a value outside [-128, 127] fails with the
local range error before any engine call and the engine state is returned
untouched, while an in-range value is forwarded to the engine unchanged,
so that after end_row the committed row holds exactly that value;
integers beyond the C int range fail locally with badarg, likewise
without any engine call. -/
theorem c7_append_int8_range :
    (∀ (a : Option EngineAppender) (app : EngineAppender) (v : Int),
      -(2 ^ 31) ≤ v → v < 2 ^ 31 →
      (((v < -128 ∨ 127 < v) →
        appender_append_int8_nif a (Term.int v) = (make_error "Value out of range for int8", a))
      ∧ (-128 ≤ v → v ≤ 127 → a = some app →
        appender_append_int8_nif a (Term.int v) =
          (Term.atom "ok", some ⟨app.currentRow ++ [v], app.committedRows⟩)
        ∧ (appender_end_row_nif (some ⟨app.currentRow ++ [v], app.committedRows⟩)).2 =
            some ⟨[], app.committedRows ++ [app.currentRow ++ [v]]⟩)))
    ∧ (∀ (a : Option EngineAppender) (v : Int),
      (v < -(2 ^ 31) ∨ 2 ^ 31 ≤ v) →
      appender_append_int8_nif a (Term.int v) = (Term.atom "badarg", a)) := by
  constructor
  · intro a app v hlo hhi
    have hget : enifGetInt (Term.int v) = some v := by
      rw [enifGetInt]
      rw [if_pos ⟨hlo, hhi⟩]
    constructor
    · intro hrange
      rw [appender_append_int8_nif]
      rw [hget]
      simp only []
      rw [if_pos hrange]
    · intro h1 h2 ha
      subst ha
      constructor
      · rw [appender_append_int8_nif, hget]
        simp only []
        rw [if_neg (by omega)]
        rw [wrapSigned8_of_range v h1 h2]
        rfl
      · rfl
  · intro a v hout
    have hget : enifGetInt (Term.int v) = none := by
      rw [enifGetInt]
      rw [if_neg (by omega)]
    rw [appender_append_int8_nif, hget]

/-- Witness for c7_append_int8_range: value 200 is rejected locally with
the engine untouched; value 100 is buffered and committed by end_row. -/
theorem c7_witness :
    appender_append_int8_nif (some ⟨[], []⟩) (Term.int 200) =
      (make_error "Value out of range for int8", some ⟨[], []⟩)
    ∧ appender_append_int8_nif (some ⟨[], []⟩) (Term.int 100) =
      (Term.atom "ok", some ⟨[100], []⟩)
    ∧ (appender_end_row_nif (some ⟨[100], []⟩)).2 = some ⟨[], [[100]]⟩ := by
  refine ⟨?_, ?_, ?_⟩
  · exact (c7_append_int8_range.1 (some ⟨[], []⟩) ⟨[], []⟩ 200 (by decide) (by decide)).1
      (Or.inr (by decide))
  · exact ((c7_append_int8_range.1 (some ⟨[], []⟩) ⟨[], []⟩ 100 (by decide) (by decide)).2
      (by decide) (by decide) rfl).1
  · exact ((c7_append_int8_range.1 (some ⟨[], []⟩) ⟨[], []⟩ 100 (by decide) (by decide)).2
      (by decide) (by decide) rfl).2

/-- Claim C8, counterexample: the second explicit destroy call on the same
appender handle is not a silent no-op; the engine rejects the emptied
handle and the call returns the error tuple, which is a signalled error. -/
theorem c8_counterexample :
    (appender_destroy_nif (appender_destroy_nif (some ⟨[], []⟩)).2).1 =
      make_error "Failed to destroy appender"
    ∧ make_error "Failed to destroy appender" ≠ Term.atom "ok" := by
  exact ⟨rfl, by decide⟩

/-- Claim C8, amended: a successful destroy empties the stored handle, and
the automatic resource destructor then performs no engine call at all (so
resource teardown after destroy cannot fault); but a second explicit
destroy call re-invokes the engine on the empty handle and returns an
error tuple (it does not crash, yet it does signal an error). -/
theorem c8_destroy_idempotence :
    ∀ (app : EngineAppender),
      appender_destroy_nif (some app) = (Term.atom "ok", none)
      ∧ appender_resource_destructor none = (false, none)
      ∧ appender_destroy_nif none = (make_error "Failed to destroy appender", none) := by
  intro app
  exact ⟨rfl, rfl, rfl⟩

/-- Witness for c8_destroy_idempotence at a concrete appender. -/
theorem c8_witness :
    appender_destroy_nif (some ⟨[], []⟩) = (Term.atom "ok", none) :=
  (c8_destroy_idempotence ⟨[], []⟩).1

theorem bindLoop_executed (stmt : PrepStatement) :
    ∀ (ps : List Term) (i : Nat) (acc : List Term),
      ((bindLoop stmt ps i acc).executed = true ↔
        ∀ p ∈ ps, bind_parameter p = DuckState.success) := by
  intro ps
  induction ps with
  | nil =>
    intro i acc
    constructor
    · intro _ p hp
      exact absurd hp (List.not_mem_nil p)
    · intro _
      rw [bindLoop]
      split <;> rfl
  | cons p ps ih =>
    intro i acc
    rw [bindLoop]
    by_cases hb : bind_parameter p = DuckState.error
    · rw [if_pos hb]
      constructor
      · intro h
        simp at h
      · intro hall
        have hsucc := hall p (List.mem_cons_self p ps)
        rw [hsucc] at hb
        exact absurd hb (by decide)
    · rw [if_neg hb]
      rw [ih (i + 1) (acc ++ [p])]
      have hsucc : bind_parameter p = DuckState.success := by
        cases h2 : bind_parameter p
        · rfl
        · exact absurd h2 hb
      constructor
      · intro hall q hq
        rcases List.mem_cons.mp hq with hqe | hqm
        · rw [hqe, hsucc]
        · exact hall q hqm
      · intro hall q hq
        exact hall q (List.mem_cons_of_mem p hq)

/-- Claim C10: a bind-list length different from the statement's declared
parameter count fails with the parameter-count-mismatch error before
anything is bound or executed (the trace shows no binds and no
execution), and the engine-side execution runs exactly when the lengths
match and every binding succeeds. -/
theorem c10_param_count_check :
    ∀ (stmt : PrepStatement) (params : List Term),
      (params.length ≠ stmt.nparams →
        prepared_statement_execute_nif stmt params =
          ⟨[], false, make_error ("Parameter count mismatch: expected " ++ toString stmt.nparams ++
            ", got " ++ toString params.length)⟩)
      ∧ ((prepared_statement_execute_nif stmt params).executed = true ↔
        (params.length = stmt.nparams ∧ ∀ p ∈ params, bind_parameter p = DuckState.success)) := by
  intro stmt params
  constructor
  · intro hne
    rw [prepared_statement_execute_nif, if_pos hne]
  · rw [prepared_statement_execute_nif]
    by_cases he : params.length ≠ stmt.nparams
    · rw [if_pos he]
      constructor
      · intro h
        simp at h
      · rintro ⟨h1, _⟩
        exact absurd h1 he
    · rw [if_neg he]
      have hlen : params.length = stmt.nparams := not_ne_iff.mp he
      rw [bindLoop_executed stmt params 0 []]
      constructor
      · intro h
        exact ⟨hlen, h⟩
      · rintro ⟨_, h⟩
        exact h

/-- Witness for c10_param_count_check: a one-element list against a
two-parameter statement gives the mismatch error with an empty trace, and
a matching, bindable list executes. -/
theorem c10_witness :
    prepared_statement_execute_nif ⟨2, DuckState.success, none⟩ [Term.int 1] =
      ⟨[], false, make_error "Parameter count mismatch: expected 2, got 1"⟩
    ∧ (prepared_statement_execute_nif ⟨2, DuckState.success, none⟩
        [Term.int 1, Term.nil]).executed = true := by
  constructor
  · have h := (c10_param_count_check ⟨2, DuckState.success, none⟩ [Term.int 1]).1 (by decide)
    rw [h]
    decide
  · exact (c10_param_count_check ⟨2, DuckState.success, none⟩ [Term.int 1, Term.nil]).2.mpr
      ⟨by decide, by decide⟩
